import Mathlib

/-!
Verification of the credit-card manager bot's core logic.

The development shallowly embeds the Python modules of the repository:

* src/database.py   (class DatabaseManager) — the record store is a list of
  rows; SQLite's UNIQUE(user_id, card_number) constraint, the WHERE clauses
  scoping every query by user_id, the LIKE search, and the date arithmetic
  of the billing mutators are embedded explicitly.  datetime.now() becomes
  an explicit (today : Date) parameter, and the generic except-Exception
  branch of add_credit_card becomes an explicit fault flag.
* src/form_manager.py (class FormManager) — the validators and the
  completeness check over the form scratch buffer.
* src/handlers.py — the card-number branch of handle_text_message and the
  form_done callback.

Python raising semantics (datetime.replace raising ValueError on an invalid
resulting date, int()/float() raising ValueError on unparsable text) become
Option results; the except-handlers of the source then map a none to the
value the Python code returns on that path.
-/

namespace CCBot

/-! ## Calendar dates (Python datetime, at day granularity) -/

/-- Calendar date, stands for a Python datetime whose time-of-day never
matters for the embedded code paths (both compared values always carry the
identical time-of-day, see update_billing_info). -/
structure Date where
  year : Nat
  month : Nat
  day : Nat
deriving DecidableEq, Repr

/-- Gregorian leap-year rule used by Python's datetime module. -/
def isLeapYear (y : Nat) : Bool :=
  (y % 4 == 0 && y % 100 != 0) || y % 400 == 0

/-- Number of days of month m of year y (months numbered 1..12). -/
def daysInMonth (y m : Nat) : Nat :=
  if m = 2 then (if isLeapYear y then 29 else 28)
  else if m = 4 ∨ m = 6 ∨ m = 9 ∨ m = 11 then 30
  else 31

/-- Validity of a date, as enforced by the datetime constructor. -/
def Date.valid (d : Date) : Bool :=
  1 ≤ d.month && d.month ≤ 12 && 1 ≤ d.day && d.day ≤ daysInMonth d.year d.month

/-- Model of datetime.replace(month=m): none models the ValueError raised
when the resulting date would be invalid (for example Jan 31 with m = 2). -/
def Date.replaceMonth (d : Date) (m : Nat) : Option Date :=
  if 1 ≤ m ∧ m ≤ 12 ∧ 1 ≤ d.day ∧ d.day ≤ daysInMonth d.year m then
    some ⟨d.year, m, d.day⟩
  else none

/-- Model of datetime.replace(year=y, month=m), with the same ValueError
behaviour as Date.replaceMonth. -/
def Date.replaceYearMonth (d : Date) (y m : Nat) : Option Date :=
  if 1 ≤ m ∧ m ≤ 12 ∧ 1 ≤ d.day ∧ d.day ≤ daysInMonth y m then
    some ⟨y, m, d.day⟩
  else none

/-- Model of datetime.replace(day=k): ValueError when k is not a day of the
date's month. -/
def Date.replaceDay (d : Date) (k : Nat) : Option Date :=
  if 1 ≤ k ∧ k ≤ daysInMonth d.year d.month then
    some ⟨d.year, d.month, k⟩
  else none

/-- Lexicographic order on dates; agrees with Python datetime comparison
whenever the two compared values carry the same time-of-day. -/
def Date.le (a b : Date) : Bool :=
  a.year < b.year ||
    (a.year == b.year &&
      (a.month < b.month || (a.month == b.month && a.day ≤ b.day)))

/-- Strict version of Date.le. -/
def Date.lt (a b : Date) : Bool :=
  a.year < b.year ||
    (a.year == b.year &&
      (a.month < b.month || (a.month == b.month && a.day < b.day)))

/-- One calendar month forward, exactly as both billing mutators compute it:
replace(year+1, month=1) in December, replace(month+1) otherwise.  none
models the ValueError path (the day does not exist in the target month). -/
def addOneMonth (d : Date) : Option Date :=
  if d.month == 12 then d.replaceYearMonth (d.year + 1) 1
  else d.replaceMonth (d.month + 1)

/-- The date update_billing_info aims at when the billing day of the
current month is already past: day b of the month after today's. -/
def rollTarget (today : Date) (b : Nat) : Date :=
  if today.month == 12 then ⟨today.year + 1, 1, b⟩
  else ⟨today.year, today.month + 1, b⟩

/-! ## The record store (table credit_cards of src/database.py) -/

/-- One row of the credit_cards table.  created_at abstracts the
CURRENT_TIMESTAMP column as a monotone tick used only for ORDER BY. -/
structure CCRecord where
  id : Nat
  user_id : Nat
  bank_name : String
  card_number : String
  expiry_date : String
  cvv : Option String
  full_card_number : Option String
  billing_date : Option Nat
  bill_amount : Option Rat
  last_bill_date : Option Date
  next_bill_date : Option Date
  bill_status : String
  payment_grace_days : Option Nat
  created_at : Nat
deriving DecidableEq, Repr

/-- Arguments of DatabaseManager.add_credit_card. -/
structure AddReq where
  user_id : Nat
  bank_name : String
  card_number : String
  expiry_date : String
  cvv : Option String
  full_card_number : Option String
deriving DecidableEq, Repr

/-- Existence of a row violating UNIQUE(user_id, card_number) for the given
pair. -/
def hasPair (db : List CCRecord) (u : Nat) (cn : String) : Bool :=
  db.any fun r => r.user_id == u && r.card_number == cn

/-- Number of rows carrying the given (user_id, card_number) pair. -/
def pairCount (db : List CCRecord) (u : Nat) (cn : String) : Nat :=
  (db.filter fun r => r.user_id == u && r.card_number == cn).length

/-- DatabaseManager.add_credit_card.  The fault flag injects the generic
except-Exception branch (an unexpected storage failure); the IntegrityError
branch fires exactly when the UNIQUE(user_id, card_number) constraint is
violated.  Both branches return False; success appends the row (billing
columns take their schema defaults) and returns True. -/
def add_credit_card (fault : Bool) (db : List CCRecord) (req : AddReq)
    (newId createdAt : Nat) : Bool × List CCRecord :=
  if fault then (false, db)
  else if hasPair db req.user_id req.card_number then (false, db)
  else
    let row : CCRecord :=
      { id := newId, user_id := req.user_id,
        bank_name := req.bank_name, card_number := req.card_number,
        expiry_date := req.expiry_date, cvv := req.cvv,
        full_card_number := req.full_card_number, billing_date := none,
        bill_amount := none, last_bill_date := none, next_bill_date := none,
        bill_status := "pending", payment_grace_days := some 21,
        created_at := createdAt }
    (true, db ++ [row])

/-- Row predicate of the WHERE user_id = ? AND id = ? clauses. -/
def ownRow (u cid : Nat) (r : CCRecord) : Bool :=
  r.user_id == u && r.id == cid

/-- DatabaseManager.get_card_by_id: SELECT scoped by user_id and id. -/
def get_card_by_id (db : List CCRecord) (u cid : Nat) : Option CCRecord :=
  db.find? (ownRow u cid)

/-- DatabaseManager.delete_card: DELETE scoped by user_id and id; True iff
some row was removed. -/
def delete_card (db : List CCRecord) (u cid : Nat) : Bool × List CCRecord :=
  (db.any (ownRow u cid), db.filter fun r => !ownRow u cid r)

/-- UPDATE ... WHERE: applies f to every row satisfying p. -/
def updateWhere (db : List CCRecord) (p : CCRecord → Bool)
    (f : CCRecord → CCRecord) : List CCRecord :=
  db.map fun r => if p r then f r else r

/-! ## SQLite LIKE and the search query -/

/-- ASCII lower-casing; SQLite's default LIKE folds case for the 26 ASCII
letters only. -/
def asciiLower (c : Char) : Char :=
  if 'A' ≤ c && c ≤ 'Z' then Char.ofNat (c.toNat + 32) else c

/-- SQLite LIKE pattern match over characters: the percent sign matches any
run of characters, the underscore exactly one, and everything else matches
itself up to ASCII case. -/
def likeMatch : List Char → List Char → Bool
  | [], t => t.isEmpty
  | p :: ps, t =>
    if p == '%' then t.tails.any fun suf => likeMatch ps suf
    else
      match t with
      | [] => false
      | c :: ts =>
        if p == '_' then likeMatch ps ts
        else (asciiLower p == asciiLower c) && likeMatch ps ts

/-- The LIKE pattern the search query builds around the raw term. -/
def likePattern (term : String) : List Char :=
  '%' :: term.toList ++ ['%']

/-- The OR of the two LIKE tests in get_cards_by_bank_or_number. -/
def matchesSearch (term : String) (r : CCRecord) : Bool :=
  likeMatch (likePattern term) r.bank_name.toList ||
    likeMatch (likePattern term) r.card_number.toList

/-- Newest-created-first comparison used by ORDER BY created_at DESC. -/
def newerFirst (a b : CCRecord) : Prop :=
  b.created_at ≤ a.created_at

instance : DecidableRel newerFirst := fun a b =>
  Nat.decLe b.created_at a.created_at

instance : IsTotal CCRecord newerFirst :=
  ⟨fun a b => Nat.le_total b.created_at a.created_at⟩

instance : IsTrans CCRecord newerFirst :=
  ⟨fun _ _ _ h h' => Nat.le_trans h' h⟩

/-- DatabaseManager.get_cards_by_bank_or_number: rows of the user whose
bank_name or card_number matches LIKE percent-term-percent, ordered by
created_at descending. -/
def get_cards_by_bank_or_number (db : List CCRecord) (u : Nat)
    (term : String) : List CCRecord :=
  (db.filter fun r => r.user_id == u && matchesSearch term r).insertionSort
    newerFirst

/-! ## Billing mutators of src/database.py -/

/-- DatabaseManager.update_billing_info, with datetime.now() passed in as
today.  Derivation of the embedding from the source:
today.replace(day=billing_date) raises ValueError when billing_date is not
a day of the current month (caught by the except branch, which returns
False without touching the table); the computed candidate keeps today's
time-of-day, so the comparison next_bill <= today holds exactly when
billing_date <= today.day; the rollover re-invokes replace, whose
ValueError again aborts the whole call.  On success the UPDATE runs and the
returned Bool is rowcount > 0. -/
def update_billing_info (today : Date) (db : List CCRecord) (u cid : Nat)
    (billing_date : Nat) (bill_amount : Rat) (grace_days : Nat) :
    Bool × List CCRecord :=
  match today.replaceDay billing_date with
  | none => (false, db)
  | some nb0 =>
    let rolled : Option Date :=
      if nb0.le today then
        if nb0.month == 12 then nb0.replaceYearMonth (nb0.year + 1) 1
        else nb0.replaceMonth (nb0.month + 1)
      else some nb0
    match rolled with
    | none => (false, db)
    | some nb =>
      (db.any (ownRow u cid),
        updateWhere db (ownRow u cid) fun r =>
          { r with billing_date := some billing_date,
                   bill_amount := some bill_amount,
                   next_bill_date := some nb,
                   payment_grace_days := some grace_days,
                   bill_status := "pending" })

/-- DatabaseManager.mark_bill_paid, with datetime.now() passed in as today.
The SELECT fetches the row scoped by user_id and id (False when absent);
next_bill_date, when set, is the base of the one-month step, otherwise
datetime.now() is; the step is replace(year+1, month=1) in December and
replace(month+1) otherwise, whose ValueError (day absent from the target
month — no clamping happens) is caught by the except branch, which returns
False without running the UPDATE. -/
def mark_bill_paid (today : Date) (db : List CCRecord) (u cid : Nat) :
    Bool × List CCRecord :=
  match db.find? (ownRow u cid) with
  | none => (false, db)
  | some r =>
    let current := r.next_bill_date
    let base := current.getD today
    match addOneMonth base with
    | none => (false, db)
    | some nb =>
      (true,
        updateWhere db (ownRow u cid) fun r =>
          { r with last_bill_date := current,
                   next_bill_date := some nb,
                   bill_status := "paid" })

/-! ## Form manager (src/form_manager.py) -/

/-- Wizard states of the FormState enum. -/
inductive FormState where
  | IDLE
  | WAITING_BANK_NAME
  | WAITING_CARD_NUMBER
  | WAITING_EXPIRY_DATE
  | WAITING_CVV
  | WAITING_BILLING_DATE
  | WAITING_BILL_AMOUNT
  | WAITING_GRACE_DAYS
deriving DecidableEq, Repr

/-- String value of each FormState member. -/
def FormState.value : FormState → String
  | .IDLE => "idle"
  | .WAITING_BANK_NAME => "waiting_bank_name"
  | .WAITING_CARD_NUMBER => "waiting_card_number"
  | .WAITING_EXPIRY_DATE => "waiting_expiry_date"
  | .WAITING_CVV => "waiting_cvv"
  | .WAITING_BILLING_DATE => "waiting_billing_date"
  | .WAITING_BILL_AMOUNT => "waiting_bill_amount"
  | .WAITING_GRACE_DAYS => "waiting_grace_days"

/-- The eight state names the FormState enum recognises. -/
def formStateNames : List String :=
  ["idle", "waiting_bank_name", "waiting_card_number", "waiting_expiry_date",
   "waiting_cvv", "waiting_billing_date", "waiting_bill_amount",
   "waiting_grace_days"]

/-- Enum lookup FormState(s): none models the ValueError raised for a value
that is no member's value. -/
def formStateOfString (s : String) : Option FormState :=
  if s == "idle" then some .IDLE
  else if s == "waiting_bank_name" then some .WAITING_BANK_NAME
  else if s == "waiting_card_number" then some .WAITING_CARD_NUMBER
  else if s == "waiting_expiry_date" then some .WAITING_EXPIRY_DATE
  else if s == "waiting_cvv" then some .WAITING_CVV
  else if s == "waiting_billing_date" then some .WAITING_BILLING_DATE
  else if s == "waiting_bill_amount" then some .WAITING_BILL_AMOUNT
  else if s == "waiting_grace_days" then some .WAITING_GRACE_DAYS
  else none

/-- One row of the user_sessions table as FormManager reads it: the raw
state column and the parse result of the form_data JSON blob (none when the
column is empty or the payload is corrupt, which get_form_data treats as no
data). -/
structure FormData where
  bank_name : String
  card_number : String
  expiry_date : String
  cvv : String
  full_card_number : String
deriving DecidableEq, Repr

/-- A stored session: raw state string plus parsed scratch buffer. -/
structure Session where
  current_state : String
  form : Option FormData
deriving DecidableEq, Repr

/-- FormManager.get_current_state: no session row, an empty state column, or
a state string outside the enum (the except-ValueError branch) all yield
IDLE; it never raises. -/
def get_current_state (sess : Option Session) : FormState :=
  match sess with
  | none => .IDLE
  | some s =>
    if s.current_state == "" then .IDLE
    else
      match formStateOfString s.current_state with
      | some st => st
      | none => .IDLE

/-- FormManager.is_form_complete over the parsed form data (none stands for
a missing session or corrupt payload).  The Python falsy test on each field
is the empty-string test here. -/
def is_form_complete (fd : Option FormData) : Bool :=
  match fd with
  | none => false
  | some d =>
    if d.bank_name == "" then false
    else if d.card_number == "" then false
    else if d.expiry_date == "" then false
    else if !(d.full_card_number == "") && d.cvv == "" then false
    else true

/-- FormManager.validate_card_number: only digits, spaces and hyphens are
allowed, and the digit count after dropping spaces and hyphens must be 4 or
between 13 and 19. -/
def validate_card_number (s : String) : Bool :=
  if !(s.toList.all fun c => c.isDigit || c == ' ' || c == '-') then false
  else
    let cleaned := s.toList.filter Char.isDigit
    if cleaned.length == 4 then true
    else if 13 ≤ cleaned.length && cleaned.length ≤ 19 then true
    else false

/-- FormManager.validate_cvv. -/
def validate_cvv (s : String) : Bool :=
  (s.toList.all Char.isDigit && !(s == "")) &&
    (3 ≤ s.length && s.length ≤ 4)

/-! ## Handlers (src/handlers.py) -/

/-- The WAITING_CARD_NUMBER branch of CreditCardHandlers.handle_text_message:
validation failure writes nothing (none); otherwise the cleaned digit string
goes to card_number when 4 digits long, and to full_card_number — with its
last four digits as card_number — when longer. -/
def handle_card_number_text (fd : FormData) (text : String) :
    Option FormData :=
  if !validate_card_number text then none
  else
    let cleaned := text.toList.filter Char.isDigit
    if cleaned.length == 4 then
      some { fd with card_number := cleaned.asString }
    else
      some { fd with
        card_number := (cleaned.drop (cleaned.length - 4)).asString,
        full_card_number := cleaned.asString }

/-- The add_credit_card arguments _handle_form_done builds from the scratch
buffer (form_data.get on a key the start of the form put there returns the
stored string, so the optional columns receive the raw strings, empty or
not). -/
def doneReq (u : Nat) (fd : FormData) : AddReq :=
  { user_id := u, bank_name := fd.bank_name, card_number := fd.card_number,
    expiry_date := fd.expiry_date, cvv := some fd.cvv,
    full_card_number := some fd.full_card_number }

/-- CreditCardHandlers._handle_form_done: the completeness gate guards the
commit; on gate failure nothing changes; on success the scratch buffer is
passed to add_credit_card, and only a True result clears the session. -/
def handle_form_done (fault : Bool) (db : List CCRecord)
    (sess : Option Session) (u : Nat) (newId createdAt : Nat) :
    List CCRecord × Option Session :=
  let fd? := sess.bind (·.form)
  if !is_form_complete fd? then (db, sess)
  else
    match fd? with
    | none => (db, sess)
    | some fd =>
      let res := add_credit_card fault db (doneReq u fd) newId createdAt
      if res.1 then (res.2, none) else (db, sess)

/-! ## Python numeric literal parsing (int and float) -/

/-- Whitespace stripped by int() and float() around a numeric literal. -/
def isPyWhitespace (c : Char) : Bool :=
  c == ' ' || c == Char.ofNat 9 || c == Char.ofNat 10 || c == Char.ofNat 13 ||
    c == Char.ofNat 11 || c == Char.ofNat 12

/-- Strips leading and trailing whitespace from a character list. -/
def trimPy (l : List Char) : List Char :=
  ((l.dropWhile isPyWhitespace).reverse.dropWhile isPyWhitespace).reverse

/-- Numeric value of an ASCII digit. -/
def digitVal (c : Char) : Nat := c.toNat - '0'.toNat

/-- Continues a digit run after at least one digit has been read: further
digits accumulate, and an underscore is legal only when a digit follows it
immediately (Python's digit-group rule).  Anything else fails. -/
def digitsTail (acc : Nat) : List Char → Option Nat
  | [] => some acc
  | c :: cs =>
    if c.isDigit then digitsTail (acc * 10 + digitVal c) cs
    else if c == '_' then
      match cs with
      | [] => none
      | d :: cs' =>
        if d.isDigit then digitsTail (acc * 10 + digitVal d) cs' else none
    else none

/-- A full digit group: one leading digit, then digitsTail.  Returns the
value of the written digits. -/
def digitGroup : List Char → Option Nat
  | [] => none
  | c :: cs => if c.isDigit then digitsTail (digitVal c) cs else none

/-- Python int(s) over the characters of s: optional surrounding whitespace,
one optional sign, then a digit group. -/
def pyIntL (l : List Char) : Option Int :=
  match trimPy l with
  | '+' :: rest => (digitGroup rest).map fun n => (n : Int)
  | '-' :: rest => (digitGroup rest).map fun n => -(n : Int)
  | rest => (digitGroup rest).map fun n => (n : Int)

/-- Python int() on a string; none models the ValueError. -/
def pyInt (s : String) : Option Int := pyIntL s.toList

/-- FormManager.validate_billing_date: int(s) in 1..31, False on
ValueError. -/
def validate_billing_date (s : String) : Bool :=
  match pyInt s with
  | some d => decide (1 ≤ d ∧ d ≤ 31)
  | none => false

/-- FormManager.validate_grace_days: int(s) in 1..60, False on
ValueError. -/
def validate_grace_days (s : String) : Bool :=
  match pyInt s with
  | some d => decide (1 ≤ d ∧ d ≤ 60)
  | none => false

/-- Model of str.split on a slash: splits at every slash, keeping empty
parts, so the result has one part more than the string has slashes. -/
def splitOnSlash : List Char → List (List Char)
  | [] => [[]]
  | c :: cs =>
    let r := splitOnSlash cs
    if c == '/' then [] :: r
    else
      match r with
      | h :: t => (c :: h) :: t
      | [] => [[c]]

/-- FormManager.validate_expiry_date: requires a slash, then unpacks the
split into exactly two parts (the except branch catches the ValueError of a
mismatched unpack or of int()), and checks month 1..12 and year 2020..2030.
Nothing checks that the month is written with two digits: any int()-parsable
part is accepted. -/
def validate_expiry_date (s : String) : Bool :=
  if !(s.toList.contains '/') then false
  else
    match splitOnSlash s.toList with
    | [m, y] =>
      match pyIntL m, pyIntL y with
      | some mv, some yv =>
        decide (1 ≤ mv ∧ mv ≤ 12 ∧ 2020 ≤ yv ∧ yv ≤ 2030)
      | _, _ => false
    | _ => false

/-- Result of Python float(): a finite value kept at its exact rational
magnitude, one of the two infinities, or nan. -/
inductive PyFloat where
  | finite (q : Rat)
  | inf
  | ninf
  | nan
deriving DecidableEq, Repr

/-- Splits a list at the first separator character, when present. -/
def splitAtFirst (isSep : Char → Bool) : List Char → List Char × Option (List Char)
  | [] => ([], none)
  | c :: cs =>
    if isSep c then ([], some cs)
    else
      let r := splitAtFirst isSep cs
      (c :: r.1, r.2)

/-- Mantissa of a float literal: digits, digits-dot, dot-digits or
digits-dot-digits, each digit run obeying the underscore rule; a lone dot
fails.  The result pair (m, d) stands for the exact value m / 10 ^ d. -/
def parseMantissa (l : List Char) : Option (Nat × Nat) :=
  let p := splitAtFirst (fun c => c == '.') l
  match p.2 with
  | none => (digitGroup p.1).map fun n => (n, 0)
  | some fp =>
    match p.1, fp with
    | [], [] => none
    | [], _ =>
      (digitGroup fp).map fun f => (f, (fp.filter Char.isDigit).length)
    | _, [] => (digitGroup p.1).map fun n => (n, 0)
    | _, _ =>
      match digitGroup p.1, digitGroup fp with
      | some i, some f =>
        let fd := (fp.filter Char.isDigit).length
        some (i * 10 ^ fd + f, fd)
      | _, _ => none

/-- Unsigned numeric float literal: mantissa with an optional e/E exponent
(itself optionally signed), valued exactly as a rational. -/
def parseNumeric (l : List Char) : Option Rat :=
  let p := splitAtFirst (fun c => c == 'e' || c == 'E') l
  match p.2 with
  | none => (parseMantissa p.1).map fun m => mkRat m.1 (10 ^ m.2)
  | some ex =>
    let expVal : Option Int :=
      match ex with
      | '+' :: r => (digitGroup r).map fun n => (n : Int)
      | '-' :: r => (digitGroup r).map fun n => -(n : Int)
      | r => (digitGroup r).map fun n => (n : Int)
    match parseMantissa p.1, expVal with
    | some m, some e =>
      if 0 ≤ e then some (mkRat (m.1 * 10 ^ e.toNat) (10 ^ m.2))
      else some (mkRat m.1 (10 ^ m.2 * 10 ^ (-e).toNat))
    | _, _ => none

/-- Leading sign of a numeric literal: a minus negates, a plus is dropped,
anything else leaves the list whole. -/
def splitSign (l : List Char) : Bool × List Char :=
  match l with
  | [] => (false, [])
  | c :: r =>
    if c == '-' then (true, r)
    else if c == '+' then (false, r)
    else (false, c :: r)

/-- Python float(s) over the characters of s: surrounding whitespace, one
optional sign, then either a numeric literal (kept at its exact value — the
parse itself never fails on magnitude, Python returns inf or 0.0 for values
beyond the double range) or one of the case-insensitive words inf, infinity
and nan. -/
def pyFloatL (l : List Char) : Option PyFloat :=
  let sr := splitSign (trimPy l)
  let low := sr.2.map asciiLower
  if low == "inf".toList || low == "infinity".toList then
    some (if sr.1 then PyFloat.ninf else PyFloat.inf)
  else if low == "nan".toList then some PyFloat.nan
  else
    (parseNumeric sr.2).map fun q => PyFloat.finite (if sr.1 then -q else q)

/-- The cleaning step of validate_bill_amount: all dollar signs, commas and
spaces removed. -/
def cleanAmount (s : String) : List Char :=
  s.toList.filter fun c => !(c == '$' || c == ',' || c == ' ')

/-- FormManager.validate_bill_amount: float(cleaned) followed by the test
value > 0; ValueError gives False.  For a finite literal the IEEE-754
double float(cleaned) is positive exactly when the literal's exact value
exceeds 2 ^ (-1075) (anything positive but not above that threshold rounds
to 0.0 under round-to-nearest-even); inf > 0 is True; nan > 0 and
-inf > 0 are False. -/
def validate_bill_amount (s : String) : Bool :=
  match pyFloatL (cleanAmount s) with
  | some (PyFloat.finite q) => decide (mkRat 1 (2 ^ 1075) < q)
  | some PyFloat.inf => true
  | some PyFloat.ninf => false
  | some PyFloat.nan => false
  | none => false

/-! ## Spec-side notions, used to compare the code against the spec's words -/

/-- Lower-cases every character the ASCII way. -/
def lowerList (l : List Char) : List Char := l.map asciiLower

/-- Exact prefix test on character lists. -/
def listStartsWith : List Char → List Char → Bool
  | [], _ => true
  | _ :: _, [] => false
  | a :: as, b :: bs => a == b && listStartsWith as bs

/-- Exact substring test on character lists (the spec's contains-as-a-
substring): the needle starts at some position of the hay. -/
def listOccurs (needle : List Char) : List Char → Bool
  | [] => listStartsWith needle []
  | c :: ts => listStartsWith needle (c :: ts) || listOccurs needle ts

/-- Characters that are no LIKE wildcard. -/
def plainChar (c : Char) : Bool := !(c == '%' || c == '_')

/-- Modelled from the spec: a string matching the MM/YYYY shape exactly —
two digits, a slash, four digits. -/
def matchesMMYYYY (s : String) : Bool :=
  match s.toList with
  | [a, b, sl, c, d, e, f] =>
    a.isDigit && b.isDigit && sl == '/' && c.isDigit && d.isDigit &&
      e.isDigit && f.isDigit
  | _ => false

/-- Modelled from the spec: text that reads as a positive decimal number —
digits with at most one decimal point, no sign, no exponent, no words, and
a digit other than zero somewhere. -/
def isPlainPosDecimal (l : List Char) : Bool :=
  l.all (fun c => c.isDigit || c == '.') && l.count '.' ≤ 1 &&
    l.any (fun c => c.isDigit && !(c == '0'))

/-- Two-digit zero-padded month image, for the MM/YYYY example family. -/
def pad2 (n : Nat) : String :=
  if n < 10 then "0" ++ toString n else toString n

/-- A sample stored row used by concrete witnesses and counterexamples. -/
def baseRec : CCRecord :=
  { id := 1, user_id := 7, bank_name := "HDFC", card_number := "1234",
    expiry_date := "12/2025", cvv := none, full_card_number := none,
    billing_date := some 15, bill_amount := some 150,
    last_bill_date := none, next_bill_date := some ⟨2025, 1, 15⟩,
    bill_status := "pending", payment_grace_days := some 21,
    created_at := 1 }

/-- A sample row whose next_bill_date is a month-end day. -/
def monthEndRec : CCRecord :=
  { baseRec with next_bill_date := some ⟨2025, 1, 31⟩ }

/-- A sample row of another owner whose card_number carries letters (the
record store accepts any string there). -/
def letterRec : CCRecord :=
  { baseRec with id := 2, user_id := 9, bank_name := "SBI",
                 card_number := "12AB", created_at := 2 }

/-- A complete scratch buffer without a full card number. -/
def fdComplete : FormData :=
  { bank_name := "HDFC", card_number := "1234", expiry_date := "12/2025",
    cvv := "", full_card_number := "" }

/-- A scratch buffer with a full card number but no CVV. -/
def fdNoCvv : FormData :=
  { fdComplete with full_card_number := "1234567890123456" }

/-! ## Helper lemmas -/

theorem splitOnSlash_length (l : List Char) :
    (splitOnSlash l).length = l.count '/' + 1 := by
  induction l with
  | nil => simp [splitOnSlash]
  | cons c cs ih =>
    simp only [splitOnSlash]
    by_cases hc : c == '/'
    · simp only [hc, if_true, List.length_cons, ih]
      have : c = '/' := by simpa using hc
      simp [this, List.count_cons]
    · cases hr : splitOnSlash cs with
      | nil => rw [hr] at ih; simp at ih
      | cons h t =>
        rw [hr] at ih
        have : c ≠ '/' := by simpa using hc
        simp only [hc, if_false, List.length_cons] at ih ⊢
        simp [List.count_cons, this, ih]

theorem contains_of_splitOnSlash_pair (l a b : List Char)
    (h : splitOnSlash l = [a, b]) : l.contains '/' = true := by
  have hlen := splitOnSlash_length l
  rw [h] at hlen
  have hc : l.count '/' = 1 := by simpa using hlen.symm
  have hm : '/' ∈ l := List.count_pos_iff.mp (by omega : 0 < l.count '/')
  simpa using hm

theorem Date.le_same_ym (y m a b : Nat) :
    Date.le ⟨y, m, a⟩ ⟨y, m, b⟩ = decide (a ≤ b) := by
  simp [Date.le]

/-! ## Claim theorems -/

/-- C10: for every stored session whose state string is none of the eight
wizard state names, get_current_state returns IDLE instead of raising, so a
corrupted state column self-heals to idle. -/
theorem get_current_state_self_heal (st : String) (fd : Option FormData)
    (h : st ∉ formStateNames) :
    get_current_state (some ⟨st, fd⟩) = FormState.IDLE := by
  simp only [formStateNames, List.mem_cons, List.not_mem_nil, or_false,
    not_or] at h
  obtain ⟨h1, h2, h3, h4, h5, h6, h7, h8⟩ := h
  by_cases he : st = ""
  · simp [get_current_state, he]
  · simp [get_current_state, formStateOfString, he, h1, h2, h3, h4, h5, h6,
      h7, h8]

/-- Witness for C10 at the concrete state string corrupted. -/
theorem get_current_state_self_heal_witness :
    get_current_state (some ⟨"corrupted", none⟩) = FormState.IDLE :=
  get_current_state_self_heal "corrupted" none (by decide)

/-- C6 counterexample: the validator accepts 1/2025, which does not match
the MM/YYYY shape (the month is written with one digit), so acceptance is
not limited to exact MM/YYYY strings. -/
theorem validate_expiry_date_cex :
    validate_expiry_date "1/2025" = true ∧
      matchesMMYYYY "1/2025" = false := by decide

/-- C6 amended: the expiry validator accepts a string exactly when splitting
it at slashes yields two parts that both parse as Python integers, with
month 1..12 and year 2020..2030; nothing constrains the month to two digits,
so any int()-parsable writing is accepted.  The claim's boundary examples
all hold, and every exact MM/YYYY string in the window is accepted. -/
theorem validate_expiry_date_amended :
    (∀ s a b mv yv, splitOnSlash s.toList = [a, b] →
       pyIntL a = some mv → pyIntL b = some yv →
       (validate_expiry_date s = true ↔
         (1 ≤ mv ∧ mv ≤ 12 ∧ 2020 ≤ yv ∧ yv ≤ 2030))) ∧
    validate_expiry_date "00/2025" = false ∧
    validate_expiry_date "13/2025" = false ∧
    validate_expiry_date "01/2019" = false ∧
    validate_expiry_date "01/2031" = false ∧
    (∀ m, m < 13 → 1 ≤ m → ∀ k, k < 11 →
       validate_expiry_date (pad2 m ++ "/" ++ toString (2020 + k)) = true) := by
  refine ⟨?_, by decide, by decide, by decide, by decide, by decide⟩
  intro s a b mv yv hsplit hm hy
  have hcon := contains_of_splitOnSlash_pair s.toList a b hsplit
  rw [validate_expiry_date, hcon]
  simp only [Bool.not_true, Bool.false_eq_true, if_false, hsplit, hm, hy]
  simp

/-- Witness for C6 applying the characterization at 01/2025. -/
theorem validate_expiry_date_amended_witness :
    validate_expiry_date "01/2025" = true :=
  (validate_expiry_date_amended.1 "01/2025" ['0', '1'] ['2', '0', '2', '5']
    1 2025 (by decide) (by decide) (by decide)).mpr (by decide)

/-- C4: every text the card-number validator accepts cleans — dropping
spaces and hyphens — to a pure digit string whose length is 4 or 13..19;
a 4-digit result is stored as card_number alone (full_card_number is not
written), and a longer result is stored whole as full_card_number with its
trailing four digits as card_number. -/
theorem handle_card_number_bifurcation (fd : FormData) (text : String)
    (hacc : validate_card_number text = true) :
    (text.toList.filter fun c => !(c == ' ' || c == '-')) =
        text.toList.filter Char.isDigit ∧
    (text.toList.filter Char.isDigit).all Char.isDigit = true ∧
    ((text.toList.filter Char.isDigit).length = 4 ∨
      (13 ≤ (text.toList.filter Char.isDigit).length ∧
        (text.toList.filter Char.isDigit).length ≤ 19)) ∧
    ((text.toList.filter Char.isDigit).length = 4 →
      handle_card_number_text fd text =
        some { fd with
          card_number := (text.toList.filter Char.isDigit).asString }) ∧
    (13 ≤ (text.toList.filter Char.isDigit).length →
      ((text.toList.filter Char.isDigit).drop
          ((text.toList.filter Char.isDigit).length - 4)).length = 4 ∧
      handle_card_number_text fd text =
        some { fd with
          card_number := ((text.toList.filter Char.isDigit).drop
            ((text.toList.filter Char.isDigit).length - 4)).asString,
          full_card_number := (text.toList.filter Char.isDigit).asString }) := by
  have hacc' := hacc
  rw [validate_card_number] at hacc'
  have hall : (text.toList.all fun c => c.isDigit || c == ' ' || c == '-') =
      true := by
    by_contra h
    have hf : (text.toList.all fun c => c.isDigit || c == ' ' || c == '-') =
        false := by simpa using h
    rw [hf] at hacc'
    simp at hacc'
  rw [hall] at hacc'
  simp only [Bool.not_true, Bool.false_eq_true, if_false] at hacc'
  have hallm := List.all_eq_true.mp hall
  have hlen : (text.toList.filter Char.isDigit).length = 4 ∨
      (13 ≤ (text.toList.filter Char.isDigit).length ∧
        (text.toList.filter Char.isDigit).length ≤ 19) := by
    by_cases h4 : ((text.toList.filter Char.isDigit).length == 4) = true
    · exact Or.inl (by simpa using h4)
    · rw [if_neg (by simpa using h4)] at hacc'
      by_cases h13 : (13 ≤ (text.toList.filter Char.isDigit).length ∧
          (text.toList.filter Char.isDigit).length ≤ 19)
      · exact Or.inr h13
      · rw [if_neg (by simpa [Bool.and_eq_true, decide_eq_true_iff]
          using h13)] at hacc'
        exact absurd hacc' (by simp)
  refine ⟨?_, ?_, hlen, ?_, ?_⟩
  · refine List.filter_congr fun c hc => ?_
    rcases (by simpa using hallm c hc) with (hd | hs) | hh
    · have hs' : (c == ' ') = false := by
        refine beq_eq_false_iff_ne.mpr fun he => ?_
        rw [he] at hd; exact absurd hd (by decide)
      have hh' : (c == '-') = false := by
        refine beq_eq_false_iff_ne.mpr fun he => ?_
        rw [he] at hd; exact absurd hd (by decide)
      simp [hs', hh', hd]
    · subst hs; decide
    · subst hh; decide
  · exact List.all_eq_true.mpr fun c hc => (List.mem_filter.mp hc).2
  · intro h4
    rw [handle_card_number_text, if_neg (by simp [hacc])]
    rw [if_pos (by simpa using h4 :
      (((text.toList.filter Char.isDigit).length == 4) = true))]
  · intro h13
    have hne : ((text.toList.filter Char.isDigit).length == 4) = false := by
      simp only [beq_eq_false_iff_ne]; omega
    constructor
    · rw [List.length_drop]; omega
    · rw [handle_card_number_text, if_neg (by simp [hacc])]
      simp only [hne, Bool.false_eq_true, if_false]

/-- Witness for C4 at the spec's worked example. -/
theorem handle_card_number_bifurcation_witness :
    handle_card_number_text fdComplete "1234 5678 9012 3456" =
      some { fdComplete with
        card_number := (("1234 5678 9012 3456".toList.filter Char.isDigit).drop
          (("1234 5678 9012 3456".toList.filter Char.isDigit).length - 4)).asString,
        full_card_number :=
          ("1234 5678 9012 3456".toList.filter Char.isDigit).asString } :=
  ((handle_card_number_bifurcation fdComplete "1234 5678 9012 3456"
    (by decide)).2.2.2.2 (by decide)).2

/-- C2: the done event commits exactly under the completeness gate — label,
short number and expiry non-empty, and a CVV whenever a full number was
entered; a failing gate changes neither the store nor the session, and a
passing gate commits through the store, clearing the session exactly when
the store accepts. -/
theorem handle_form_done_gate (fault : Bool) (db : List CCRecord)
    (s : Session) (u newId createdAt : Nat) (fd : FormData)
    (hform : s.form = some fd) :
    (is_form_complete (some fd) = true ↔
      (fd.bank_name ≠ "" ∧ fd.card_number ≠ "" ∧ fd.expiry_date ≠ "" ∧
        (fd.full_card_number = "" ∨ fd.cvv ≠ ""))) ∧
    (is_form_complete (some fd) = false →
      handle_form_done fault db (some s) u newId createdAt = (db, some s)) ∧
    (is_form_complete (some fd) = true →
      ((add_credit_card fault db (doneReq u fd) newId createdAt).1 = true →
        handle_form_done fault db (some s) u newId createdAt =
          ((add_credit_card fault db (doneReq u fd) newId createdAt).2,
            none)) ∧
      ((add_credit_card fault db (doneReq u fd) newId createdAt).1 = false →
        handle_form_done fault db (some s) u newId createdAt =
          (db, some s))) := by
  refine ⟨?_, ?_, ?_⟩
  · rw [is_form_complete]
    constructor
    · intro h
      by_cases h1 : fd.bank_name = "" <;> by_cases h2 : fd.card_number = "" <;>
        by_cases h3 : fd.expiry_date = "" <;> simp [h1, h2, h3] at h ⊢
      by_cases h4 : fd.full_card_number = ""
      · exact Or.inl h4
      · by_cases h5 : fd.cvv = ""
        · simp [h4, h5] at h
        · exact Or.inr h5
    · rintro ⟨h1, h2, h3, h45⟩
      rcases h45 with h4 | h5
      · simp [h1, h2, h3, h4]
      · simp [h1, h2, h3, h5]
  · intro h
    rw [handle_form_done]
    simp [hform, h]
  · intro h
    constructor <;> intro hadd <;> rw [handle_form_done] <;>
      simp [hform, h, hadd]

/-- Witness for C2: a complete form committed into an empty store clears
the session. -/
theorem handle_form_done_gate_witness :
    handle_form_done false [] (some ⟨"idle", some fdComplete⟩) 7 1 1 =
      ((add_credit_card false [] (doneReq 7 fdComplete) 1 1).2, none) :=
  ((handle_form_done_gate false [] ⟨"idle", some fdComplete⟩ 7 1 1 fdComplete
    rfl).2.2 (by decide)).1 (by decide)

/-- C3 counterexample: a duplicate (owner, short number) pair and an
unexpected storage fault return the one and the same False from
add_credit_card — the caller cannot tell the expected duplicate failure
from an unexpected storage failure (they differ only in logging), so the
claimed distinction between the two outcomes does not exist. -/
theorem add_credit_card_outcome_cex :
    (add_credit_card false [baseRec]
        { user_id := 7, bank_name := "AXIS", card_number := "1234",
          expiry_date := "01/2026", cvv := none, full_card_number := none }
        2 2).1 = false ∧
    (add_credit_card true []
        { user_id := 7, bank_name := "AXIS", card_number := "1234",
          expiry_date := "01/2026", cvv := none, full_card_number := none }
        1 1).1 = false ∧
    hasPair [] 7 "1234" = false ∧
    hasPair [baseRec] 7 "1234" = true := by decide

/-- C3 amended: absent an injected storage fault, add_credit_card fails
exactly when a row with the same (owner, short number) pair exists, a
duplicate leaves the store untouched, and a first create followed by a
second create of the same pair leaves exactly one matching row — but the
failure value itself is the same False an unexpected storage failure
returns, so the two outcomes are distinguished only in the log. -/
theorem add_credit_card_amended (db : List CCRecord) (req : AddReq)
    (n1 c1 n2 c2 : Nat) :
    ((add_credit_card false db req n1 c1).1 = false ↔
      hasPair db req.user_id req.card_number = true) ∧
    (hasPair db req.user_id req.card_number = true →
      (add_credit_card false db req n1 c1).2 = db) ∧
    (hasPair db req.user_id req.card_number = false →
      (add_credit_card false db req n1 c1).1 = true ∧
      pairCount (add_credit_card false db req n1 c1).2
        req.user_id req.card_number = 1 ∧
      (add_credit_card false (add_credit_card false db req n1 c1).2 req
        n2 c2).1 = false ∧
      (add_credit_card false (add_credit_card false db req n1 c1).2 req
        n2 c2).2 = (add_credit_card false db req n1 c1).2) := by
  refine ⟨?_, ?_, ?_⟩
  · rw [add_credit_card]
    by_cases h : hasPair db req.user_id req.card_number = true
    · simp [h]
    · simp [h]
  · intro h
    rw [add_credit_card]
    simp [h]
  · intro h
    have hcount : pairCount db req.user_id req.card_number = 0 := by
      rw [pairCount, List.length_eq_zero, List.filter_eq_nil_iff]
      intro a ha hpa
      have ht : hasPair db req.user_id req.card_number = true := by
        rw [hasPair]
        exact List.any_eq_true.mpr ⟨a, ha, hpa⟩
      rw [h] at ht
      exact absurd ht (by simp)
    have hsnd : (add_credit_card false db req n1 c1).2 = db ++
        [{ id := n1, user_id := req.user_id, bank_name := req.bank_name,
           card_number := req.card_number, expiry_date := req.expiry_date,
           cvv := req.cvv, full_card_number := req.full_card_number,
           billing_date := none, bill_amount := none, last_bill_date := none,
           next_bill_date := none, bill_status := "pending",
           payment_grace_days := some 21, created_at := c1 }] := by
      simp [add_credit_card, h]
    refine ⟨by simp [add_credit_card, h], ?_, ?_, ?_⟩
    · rw [hsnd, pairCount, List.filter_append, List.length_append]
      rw [pairCount] at hcount
      rw [hcount]
      simp
    · rw [hsnd]
      simp [add_credit_card, hasPair, List.any_append]
    · rw [hsnd]
      simp [add_credit_card, hasPair, List.any_append]

/-- Witness for C3: the scenario of the spec run at owner 7 and short
number 1234 on an empty store. -/
theorem add_credit_card_amended_witness :
    (add_credit_card false
      (add_credit_card false []
        { user_id := 7, bank_name := "HDFC", card_number := "1234",
          expiry_date := "12/2025", cvv := none, full_card_number := none }
        1 1).2
      { user_id := 7, bank_name := "HDFC", card_number := "1234",
        expiry_date := "12/2025", cvv := none, full_card_number := none }
      2 2).1 = false :=
  ((add_credit_card_amended []
    { user_id := 7, bank_name := "HDFC", card_number := "1234",
      expiry_date := "12/2025", cvv := none, full_card_number := none }
    1 1 2 2).2.2 (by decide)).2.2.1

/-- C7: under the primary-key uniqueness of row ids, a record created by
owner A is invisible to any other owner B — the point lookup returns none,
the very value an absent id yields, and no search of B ever lists it. -/
theorem owner_isolation (db : List CCRecord) (A B : Nat) (r : CCRecord)
    (t : String) (hids : (db.map CCRecord.id).Nodup)
    (hmem : r ∈ db) (hA : r.user_id = A) (hAB : A ≠ B) :
    get_card_by_id db B r.id = none ∧
    r ∉ get_cards_by_bank_or_number db B t := by
  constructor
  · rw [get_card_by_id, List.find?_eq_none]
    intro x hx hpx
    have hx1 : x.user_id = B ∧ x.id = r.id := by
      simpa [ownRow] using hpx
    have hxr : x = r := List.inj_on_of_nodup_map hids hx hmem hx1.2
    rw [hxr, hA] at hx1
    exact hAB hx1.1
  · intro hmem'
    have h2 : r ∈ db.filter fun x => x.user_id == B && matchesSearch t x :=
      (List.Perm.mem_iff (List.perm_insertionSort newerFirst _)).mp hmem'
    have h3 := (List.mem_filter.mp h2).2
    have : r.user_id = B := by
      have h4 : (r.user_id == B) = true := by
        rcases Bool.and_eq_true _ _ |>.mp h3 with ⟨h4, _⟩
        exact h4
      simpa using h4
    exact hAB (hA ▸ this)

/-- Witness for C7 on a two-owner store. -/
theorem owner_isolation_witness :
    get_card_by_id [baseRec, letterRec] 9 baseRec.id = none ∧
    baseRec ∉ get_cards_by_bank_or_number [baseRec, letterRec] 9 "HDFC" :=
  owner_isolation [baseRec, letterRec] 7 9 baseRec "HDFC" (by decide)
    (by decide) (by decide) (by decide)

/-- C1 counterexample: a record whose next_bill_date is the month-end
2025-01-31 is not clamped to 2025-02-28 — the one-month replace raises,
the handler catches, and mark_bill_paid returns False leaving the row
unchanged, still pending with its old dates. -/
theorem mark_bill_paid_cex :
    mark_bill_paid ⟨2025, 2, 1⟩ [monthEndRec] 7 1 = (false, [monthEndRec]) ∧
    monthEndRec.next_bill_date = some ⟨2025, 1, 31⟩ ∧
    monthEndRec.bill_status = "pending" ∧
    monthEndRec.last_bill_date = none := by decide

/-- C1 amended: when the record's next_bill_date is set and its day number
exists in the following month, mark_bill_paid stores the old next_bill_date
as last_bill_date, marks the bill paid, and advances next_bill_date by
exactly one calendar month (same day, month index one higher); when the day
does not exist in the following month there is no clamping — the call fails
and changes nothing. -/
theorem mark_bill_paid_one_month (today : Date) (db : List CCRecord)
    (u cid : Nat) (r : CCRecord) (d : Date)
    (hfind : db.find? (ownRow u cid) = some r)
    (hnext : r.next_bill_date = some d) :
    (∀ nb, addOneMonth d = some nb →
      nb.day = d.day ∧
      12 * nb.year + nb.month = 12 * d.year + d.month + 1 ∧
      mark_bill_paid today db u cid =
        (true, updateWhere db (ownRow u cid) fun s =>
          { s with last_bill_date := some d, next_bill_date := some nb,
                   bill_status := "paid" })) ∧
    (addOneMonth d = none → mark_bill_paid today db u cid = (false, db)) := by
  constructor
  · intro nb hnb
    refine ⟨?_, ?_, ?_⟩
    · rw [addOneMonth] at hnb
      by_cases h12 : (d.month == 12) = true
      · rw [if_pos h12, Date.replaceYearMonth] at hnb
        split at hnb
        · cases hnb; rfl
        · cases hnb
      · rw [if_neg h12, Date.replaceMonth] at hnb
        split at hnb
        · cases hnb; rfl
        · cases hnb
    · rw [addOneMonth] at hnb
      by_cases h12 : (d.month == 12) = true
      · rw [if_pos h12, Date.replaceYearMonth] at hnb
        have h12' : d.month = 12 := by simpa using h12
        split at hnb
        · cases hnb; simp [h12']; omega
        · cases hnb
      · rw [if_neg h12, Date.replaceMonth] at hnb
        split at hnb
        · cases hnb; simp; omega
        · cases hnb
    · rw [mark_bill_paid, hfind]
      simp only [hnext, Option.getD_some]
      rw [hnb]
  · intro hnone
    rw [mark_bill_paid, hfind]
    simp only [hnext, Option.getD_some]
    rw [hnone]

/-- Witness for C1 at the spec's example 2025-01-15. -/
theorem mark_bill_paid_one_month_witness :
    mark_bill_paid ⟨2025, 2, 1⟩ [baseRec] 7 1 =
      (true, updateWhere [baseRec] (ownRow 7 1) fun s =>
        { s with last_bill_date := some ⟨2025, 1, 15⟩,
                 next_bill_date := some ⟨2025, 2, 15⟩,
                 bill_status := "paid" }) :=
  ((mark_bill_paid_one_month ⟨2025, 2, 1⟩ [baseRec] 7 1 baseRec
    ⟨2025, 1, 15⟩ (by decide) (by decide)).1 ⟨2025, 2, 15⟩ (by decide)).2.2

theorem Date.le_mk_self (t : Date) (a : Nat) :
    Date.le ⟨t.year, t.month, a⟩ t = decide (a ≤ t.day) := by
  simp [Date.le]

theorem Date.lt_mk_self (t : Date) (a : Nat) :
    Date.lt t ⟨t.year, t.month, a⟩ = decide (t.day < a) := by
  simp [Date.lt]

theorem Date.lt_rollTarget (t : Date) (b : Nat) :
    Date.lt t (rollTarget t b) = true := by
  rw [rollTarget]
  by_cases h : (t.month == 12) = true
  · rw [if_pos h]
    simp [Date.lt]
  · rw [if_neg h]
    simp [Date.lt]

/-- C5 counterexample: on 2025-02-10 with billing day 31, the claimed next
occurrence 2025-03-31 is never stored — today.replace(day=31) raises for
February, the handler catches, and the call returns False leaving the row
unchanged. -/
theorem update_billing_info_cex :
    update_billing_info ⟨2025, 2, 10⟩ [baseRec] 7 1 31 150 21 =
      (false, [baseRec]) := by decide

/-- C5 amended: for a valid current date, set_billing stores the next
occurrence of the billing day — this month when still ahead, the next
month when the day has passed or is today — strictly after today, and
resets the status to pending, provided the billing day exists in the month
it lands in; when the billing day exceeds the length of the current month,
or of the next month after rolling over, the call fails and stores
nothing. -/
theorem update_billing_info_next_occurrence (today : Date)
    (db : List CCRecord) (u cid : Nat) (b : Nat) (amt : Rat) (g : Nat)
    (hv : today.valid = true) (hb1 : 1 ≤ b) :
    (today.day < b → b ≤ daysInMonth today.year today.month →
      update_billing_info today db u cid b amt g =
        (db.any (ownRow u cid), updateWhere db (ownRow u cid) fun r =>
          { r with billing_date := some b, bill_amount := some amt,
                   next_bill_date := some ⟨today.year, today.month, b⟩,
                   payment_grace_days := some g,
                   bill_status := "pending" }) ∧
      Date.lt today ⟨today.year, today.month, b⟩ = true) ∧
    (b ≤ today.day →
      b ≤ daysInMonth (rollTarget today b).year (rollTarget today b).month →
      update_billing_info today db u cid b amt g =
        (db.any (ownRow u cid), updateWhere db (ownRow u cid) fun r =>
          { r with billing_date := some b, bill_amount := some amt,
                   next_bill_date := some (rollTarget today b),
                   payment_grace_days := some g,
                   bill_status := "pending" }) ∧
      Date.lt today (rollTarget today b) = true) ∧
    (daysInMonth today.year today.month < b →
      update_billing_info today db u cid b amt g = (false, db)) ∧
    (b ≤ today.day →
      daysInMonth (rollTarget today b).year (rollTarget today b).month < b →
      update_billing_info today db u cid b amt g = (false, db)) := by
  have hv' : 1 ≤ today.month ∧ today.month ≤ 12 ∧ 1 ≤ today.day ∧
      today.day ≤ daysInMonth today.year today.month := by
    simpa [Date.valid, Bool.and_eq_true, decide_eq_true_iff, and_assoc]
      using hv
  obtain ⟨hm1, hm12, hd1, hdm⟩ := hv'
  refine ⟨?_, ?_, ?_, ?_⟩
  · intro h1 h2
    have hrepl : today.replaceDay b = some ⟨today.year, today.month, b⟩ := by
      rw [Date.replaceDay, if_pos ⟨hb1, h2⟩]
    constructor
    · simp only [update_billing_info, hrepl, Date.le_mk_self]
      rw [if_neg (by simp; omega)]
    · rw [Date.lt_mk_self]
      simp
      omega
  · intro h1 h2
    have hrepl : today.replaceDay b = some ⟨today.year, today.month, b⟩ := by
      rw [Date.replaceDay, if_pos ⟨hb1, by omega⟩]
    refine ⟨?_, Date.lt_rollTarget today b⟩
    simp only [update_billing_info, hrepl, Date.le_mk_self]
    rw [if_pos (by simp; omega)]
    by_cases h12 : (today.month == 12) = true
    · rw [rollTarget, if_pos h12] at h2 ⊢
      simp only [h12, if_true]
      rw [Date.replaceYearMonth]
      rw [if_pos ⟨by omega, by omega, hb1, h2⟩]
    · rw [rollTarget, if_neg h12] at h2 ⊢
      simp only [h12, Bool.false_eq_true, if_false]
      rw [Date.replaceMonth]
      have hne12 : today.month ≠ 12 := by simpa using h12
      rw [if_pos ⟨by omega, by omega, hb1, h2⟩]
  · intro h1
    have hrepl : today.replaceDay b = none := by
      rw [Date.replaceDay, if_neg (by omega)]
    simp only [update_billing_info, hrepl]
  · intro h1 h2
    have hrepl : today.replaceDay b = some ⟨today.year, today.month, b⟩ := by
      rw [Date.replaceDay, if_pos ⟨hb1, by omega⟩]
    simp only [update_billing_info, hrepl, Date.le_mk_self]
    rw [if_pos (by simp; omega)]
    by_cases h12 : (today.month == 12) = true
    · rw [rollTarget, if_pos h12] at h2
      dsimp only at h2
      simp only [h12, if_true]
      rw [Date.replaceYearMonth, if_neg (by dsimp only; omega)]
    · rw [rollTarget, if_neg h12] at h2
      dsimp only at h2
      simp only [h12, Bool.false_eq_true, if_false]
      rw [Date.replaceMonth, if_neg (by dsimp only; omega)]

/-- Witness for C5: billing day 15 requested on 2025-02-10 lands on
2025-02-15, strictly after today, with the row reset to pending. -/
theorem update_billing_info_next_occurrence_witness :
    update_billing_info ⟨2025, 2, 10⟩ [baseRec] 7 1 15 150 21 =
      ([baseRec].any (ownRow 7 1), updateWhere [baseRec] (ownRow 7 1)
        fun r =>
          { r with billing_date := some 15, bill_amount := some 150,
                   next_bill_date := some ⟨2025, 2, 15⟩,
                   payment_grace_days := some 21,
                   bill_status := "pending" }) ∧
    Date.lt ⟨2025, 2, 10⟩ ⟨2025, 2, 15⟩ = true :=
  (update_billing_info_next_occurrence ⟨2025, 2, 10⟩ [baseRec] 7 1 15 150 21
    (by decide) (by decide)).1 (by decide) (by decide)

theorem likeMatch_percent_nil (t : List Char) : likeMatch ['%'] t = true := by
  induction t with
  | nil => decide
  | cons c ts ih =>
    simp_all [likeMatch, List.tails_cons]

theorem likeMatch_plain_percent (p : List Char) (hp : p.all plainChar = true) :
    ∀ t, likeMatch (p ++ ['%']) t =
      listStartsWith (lowerList p) (lowerList t) := by
  induction p with
  | nil =>
    intro t
    simp [likeMatch_percent_nil, lowerList, listStartsWith]
  | cons a as ih =>
    have ha : plainChar a = true ∧ as.all plainChar = true := by simpa using hp
    have hna : (a == '%') = false ∧ (a == '_') = false := by
      have hpa := ha.1
      rw [plainChar] at hpa
      constructor
      · cases hq : a == '%'
        · rfl
        · rw [hq] at hpa; simp at hpa
      · cases hq : a == '_'
        · rfl
        · rw [hq] at hpa; simp at hpa
    intro t
    cases t with
    | nil =>
      rw [List.cons_append]
      simp only [likeMatch]
      rw [if_neg (by simp [hna.1])]
      simp [lowerList, listStartsWith]
    | cons c ts =>
      rw [List.cons_append]
      simp only [likeMatch]
      rw [if_neg (by simp [hna.1])]
      simp only [hna.2, Bool.false_eq_true, if_false]
      simp [lowerList, listStartsWith, ih ha.2 ts]

theorem tails_any_startsWith (n : List Char) :
    ∀ t : List Char,
      (t.tails.any fun suf => listStartsWith n (lowerList suf)) =
        listOccurs n (lowerList t) := by
  intro t
  induction t with
  | nil => simp [listOccurs, lowerList]
  | cons c ts ih =>
    simp only [List.tails_cons, List.any_cons, lowerList, List.map_cons,
      listOccurs] at ih ⊢
    rw [ih]

theorem likeMatch_percent_wrap (p : List Char) (hp : p.all plainChar = true) :
    ∀ t, likeMatch ('%' :: p ++ ['%']) t =
      listOccurs (lowerList p) (lowerList t) := by
  intro t
  have h1 : likeMatch ('%' :: p ++ ['%']) t =
      t.tails.any fun suf => likeMatch (p ++ ['%']) suf := by
    simp [likeMatch]
  rw [h1]
  simp only [likeMatch_plain_percent p hp]
  exact tails_any_startsWith (lowerList p) t

/-- C8 counterexample: the search term is spliced into the LIKE pattern
unescaped, so its wildcards act: the term consisting of one underscore
returns owner 7's record although no field of it contains an underscore;
and matching is ASCII-case-insensitive on the number column too, so the
term ab finds a card number 12AB that never contains ab itself. -/
theorem get_cards_by_bank_or_number_cex :
    get_cards_by_bank_or_number [baseRec] 7 "_" = [baseRec] ∧
    listOccurs "_".toList baseRec.bank_name.toList = false ∧
    listOccurs "_".toList baseRec.card_number.toList = false ∧
    get_cards_by_bank_or_number [letterRec] 9 "ab" = [letterRec] ∧
    listOccurs "ab".toList letterRec.card_number.toList = false := by decide

/-- C8 amended: for a term free of the LIKE wildcards, the search returns
exactly the owner's records whose label or number contains the term as a
substring up to ASCII case — the match is case-insensitive on both columns,
not case-sensitive on the number — ordered newest-created first; a term
containing a percent sign or underscore instead acts as a wildcard
pattern. -/
theorem get_cards_by_bank_or_number_amended (db : List CCRecord) (u : Nat)
    (term : String) (hplain : term.toList.all plainChar = true) :
    (∀ r, r ∈ get_cards_by_bank_or_number db u term ↔
      (r ∈ db ∧ r.user_id = u ∧
        (listOccurs (lowerList term.toList)
            (lowerList r.bank_name.toList) = true ∨
         listOccurs (lowerList term.toList)
            (lowerList r.card_number.toList) = true))) ∧
    (get_cards_by_bank_or_number db u term).Sorted newerFirst := by
  constructor
  · intro r
    rw [get_cards_by_bank_or_number,
      List.Perm.mem_iff (List.perm_insertionSort newerFirst _),
      List.mem_filter]
    constructor
    · rintro ⟨hmem, hp⟩
      rcases Bool.and_eq_true _ _ |>.mp hp with ⟨h1, h2⟩
      refine ⟨hmem, by simpa using h1, ?_⟩
      rw [matchesSearch, likePattern,
        likeMatch_percent_wrap _ hplain, likeMatch_percent_wrap _ hplain]
        at h2
      simpa using h2
    · rintro ⟨hmem, hu, hocc⟩
      refine ⟨hmem, Bool.and_eq_true _ _ |>.mpr ⟨by simpa using hu, ?_⟩⟩
      rw [matchesSearch, likePattern,
        likeMatch_percent_wrap _ hplain, likeMatch_percent_wrap _ hplain]
      simpa using hocc
  · exact List.sorted_insertionSort newerFirst _

/-- Witness for C8: the wildcard-free term hd finds the HDFC record of
owner 7 case-insensitively and nothing else. -/
theorem get_cards_by_bank_or_number_amended_witness :
    (baseRec ∈ get_cards_by_bank_or_number [baseRec, letterRec] 7 "hd" ↔
      (baseRec ∈ [baseRec, letterRec] ∧ baseRec.user_id = 7 ∧
        (listOccurs (lowerList "hd".toList)
            (lowerList baseRec.bank_name.toList) = true ∨
         listOccurs (lowerList "hd".toList)
            (lowerList baseRec.card_number.toList) = true))) :=
  (get_cards_by_bank_or_number_amended [baseRec, letterRec] 7 "hd"
    (by decide)).1 baseRec

theorem beq_char_false_of_digit (c x : Char) (h : c.isDigit = true)
    (hx : x.isDigit = false) : (c == x) = false := by
  refine beq_eq_false_iff_ne.mpr fun he => ?_
  rw [he] at h
  exact Bool.noConfusion (h.symm.trans hx)

theorem not_pyws_of_digit (c : Char) (h : c.isDigit = true) :
    isPyWhitespace c = false := by
  rw [isPyWhitespace]
  rw [beq_char_false_of_digit c ' ' h (by decide),
      beq_char_false_of_digit c (Char.ofNat 9) h (by decide),
      beq_char_false_of_digit c (Char.ofNat 10) h (by decide),
      beq_char_false_of_digit c (Char.ofNat 13) h (by decide),
      beq_char_false_of_digit c (Char.ofNat 11) h (by decide),
      beq_char_false_of_digit c (Char.ofNat 12) h (by decide)]
  rfl

theorem trimPy_eq_self (l : List Char)
    (h : ∀ c ∈ l, isPyWhitespace c = false) : trimPy l = l := by
  rw [trimPy]
  have h1 : l.dropWhile isPyWhitespace = l := by
    cases l with
    | nil => rfl
    | cons c cs =>
      rw [List.dropWhile_cons, if_neg (by simp [h c (by simp)])]
  rw [h1]
  have h2 : l.reverse.dropWhile isPyWhitespace = l.reverse := by
    cases hr : l.reverse with
    | nil => rfl
    | cons c cs =>
      have hc : c ∈ l := by
        have hcr : c ∈ l.reverse := by rw [hr]; simp
        simpa using hcr
      rw [List.dropWhile_cons, if_neg (by simp [h c hc])]
  rw [h2, List.reverse_reverse]

theorem digitsTail_all_digits (acc : Nat) (l : List Char)
    (h : ∀ c ∈ l, c.isDigit = true) :
    ∃ n, digitsTail acc l = some n ∧ acc ≤ n ∧
      ∀ c ∈ l, 1 ≤ digitVal c → 1 ≤ n := by
  induction l generalizing acc with
  | nil => exact ⟨acc, rfl, le_rfl, by simp⟩
  | cons c cs ih =>
    have hc := h c (by simp)
    obtain ⟨n, hn, hle, hnz⟩ := ih (acc * 10 + digitVal c)
      (fun d hd => h d (by simp [hd]))
    refine ⟨n, ?_, ?_, ?_⟩
    · rw [digitsTail.eq_def]
      dsimp only
      rw [if_pos hc]
      exact hn
    · exact le_trans (by omega) hle
    · intro d hd hdv
      rcases List.mem_cons.mp hd with rfl | hd'
      · exact le_trans (by omega) hle
      · exact hnz d hd' hdv

theorem digitGroup_all_digits (l : List Char) (hne : l ≠ [])
    (h : ∀ c ∈ l, c.isDigit = true) :
    ∃ n, digitGroup l = some n ∧
      ((∃ c ∈ l, 1 ≤ digitVal c) → 1 ≤ n) := by
  cases l with
  | nil => exact absurd rfl hne
  | cons c cs =>
    have hc := h c (by simp)
    obtain ⟨n, hn, hle, hnz⟩ := digitsTail_all_digits (digitVal c) cs
      (fun d hd => h d (by simp [hd]))
    refine ⟨n, ?_, ?_⟩
    · rw [digitGroup.eq_def]
      dsimp only
      rw [if_pos hc]
      exact hn
    · rintro ⟨d, hd, hdv⟩
      rcases List.mem_cons.mp hd with rfl | hd'
      · exact le_trans (by omega) hle
      · exact hnz d hd' hdv

theorem splitAtFirst_of_none (isSep : Char → Bool) (l : List Char)
    (h : ∀ c ∈ l, isSep c = false) : splitAtFirst isSep l = (l, none) := by
  induction l with
  | nil => rfl
  | cons c cs ih =>
    rw [splitAtFirst.eq_def]
    dsimp only
    rw [if_neg (by simp [h c (by simp)])]
    rw [ih (fun d hd => h d (by simp [hd]))]

theorem asciiLower_digit (c : Char) (h : c.isDigit = true) :
    asciiLower c = c := by
  rw [asciiLower, if_neg]
  intro hand
  rcases Bool.and_eq_true _ _ |>.mp hand with ⟨hA, _⟩
  have h65 : (65 : Nat) ≤ c.toNat := by
    have hA' : 'A' ≤ c := by simpa using hA
    exact hA'
  have h57 : c.toNat ≤ 57 := by
    rw [Char.isDigit] at h
    rcases Bool.and_eq_true _ _ |>.mp h with ⟨_, h2⟩
    have h2' : c ≤ '9' := by simpa using h2
    exact h2'
  omega

theorem map_asciiLower_digits (l : List Char)
    (hdig : ∀ c ∈ l, c.isDigit = true) : l.map asciiLower = l := by
  induction l with
  | nil => rfl
  | cons c cs ih =>
    rw [List.map_cons, asciiLower_digit c (hdig c (by simp)),
      ih (fun d hd => hdig d (by simp [hd]))]

theorem pyFloatL_digits (l : List Char) (hne : l ≠ [])
    (hdig : ∀ c ∈ l, c.isDigit = true) (n : Nat)
    (hg : digitGroup l = some n) :
    pyFloatL l = some (PyFloat.finite (mkRat n 1)) := by
  have htrim : trimPy l = l :=
    trimPy_eq_self l fun c hc => not_pyws_of_digit c (hdig c hc)
  obtain ⟨c, cs, rfl⟩ : ∃ c cs, l = c :: cs := by
    cases l with
    | nil => exact absurd rfl hne
    | cons c cs => exact ⟨c, cs, rfl⟩
  have hc := hdig c (by simp)
  have hsign : splitSign (c :: cs) = (false, c :: cs) := by
    simp only [splitSign]
    rw [if_neg (by simp [beq_char_false_of_digit c '-' hc (by decide)]),
        if_neg (by simp [beq_char_false_of_digit c '+' hc (by decide)])]
  have hmap : (c :: cs).map asciiLower = c :: cs :=
    map_asciiLower_digits _ hdig
  have hinf1 : ((c :: cs).map asciiLower == "inf".toList) = false := by
    rw [hmap]
    refine beq_eq_false_iff_ne.mpr fun he => ?_
    have hmm : 'i' ∈ c :: cs := by rw [he]; decide
    exact Bool.noConfusion
      ((hdig 'i' hmm).symm.trans (by decide : 'i'.isDigit = false))
  have hinf2 : ((c :: cs).map asciiLower == "infinity".toList) = false := by
    rw [hmap]
    refine beq_eq_false_iff_ne.mpr fun he => ?_
    have hmm : 'i' ∈ c :: cs := by rw [he]; decide
    exact Bool.noConfusion
      ((hdig 'i' hmm).symm.trans (by decide : 'i'.isDigit = false))
  have hnan : ((c :: cs).map asciiLower == "nan".toList) = false := by
    rw [hmap]
    refine beq_eq_false_iff_ne.mpr fun he => ?_
    have hmm : 'n' ∈ c :: cs := by rw [he]; decide
    exact Bool.noConfusion
      ((hdig 'n' hmm).symm.trans (by decide : 'n'.isDigit = false))
  have hsplitE : splitAtFirst (fun ch => ch == 'e' || ch == 'E') (c :: cs) =
      (c :: cs, none) := by
    refine splitAtFirst_of_none _ _ fun d hd => ?_
    rw [beq_char_false_of_digit d 'e' (hdig d hd) (by decide),
        beq_char_false_of_digit d 'E' (hdig d hd) (by decide)]
    rfl
  have hsplitD : splitAtFirst (fun ch => ch == '.') (c :: cs) =
      (c :: cs, none) :=
    splitAtFirst_of_none _ _ fun d hd =>
      beq_char_false_of_digit d '.' (hdig d hd) (by decide)
  rw [pyFloatL]
  rw [htrim, hsign]
  simp only [hinf1, hinf2, hnan, Bool.or_self, Bool.or_false,
    Bool.false_eq_true, if_false]
  rw [parseNumeric, hsplitE]
  dsimp only
  rw [parseMantissa, hsplitD]
  dsimp only
  rw [hg]
  simp

/-- C9 counterexample: after cleaning, the text inf is no decimal number
at all, yet float accepts it as positive infinity and the validator
returns True. -/
theorem validate_bill_amount_cex :
    validate_bill_amount "inf" = true ∧
    isPlainPosDecimal (cleanAmount "inf") = false := by decide

set_option maxRecDepth 8000 in
/-- C9 amended: the validator accepts exactly the cleaned texts that parse
under Python float syntax — optional sign, decimal or scientific notation,
or the words inf, infinity and nan — with a positive resulting value: every
cleaned all-digit text containing a nonzero digit is accepted, the
infinity literal is accepted although it is no decimal, nan and
non-positive or unparsable texts are rejected, and a positive decimal so
small that the double rounds to zero is rejected. -/
theorem validate_bill_amount_amended :
    (∀ s, cleanAmount s ≠ [] →
      (∀ c ∈ cleanAmount s, c.isDigit = true) →
      (∃ c ∈ cleanAmount s, 1 ≤ digitVal c) →
      validate_bill_amount s = true) ∧
    validate_bill_amount "150.00" = true ∧
    validate_bill_amount "$1,234.56" = true ∧
    validate_bill_amount "0" = false ∧
    validate_bill_amount "0.00" = false ∧
    validate_bill_amount "-5" = false ∧
    validate_bill_amount "abc" = false ∧
    validate_bill_amount "" = false ∧
    validate_bill_amount "nan" = false ∧
    validate_bill_amount "1e-999" = false := by
  refine ⟨?_, by decide, by decide, by decide, by decide, by decide,
    by decide, by decide, by decide, by decide⟩
  intro s hne hdig hnz
  obtain ⟨n, hg, hpos⟩ := digitGroup_all_digits (cleanAmount s) hne hdig
  have h1 : 1 ≤ n := hpos hnz
  rw [validate_bill_amount, pyFloatL_digits (cleanAmount s) hne hdig n hg]
  rw [decide_eq_true_iff, Rat.mkRat_eq_div, Rat.mkRat_eq_div]
  push_cast
  rw [div_one]
  have h2 : (1 : Rat) / 2 ^ 1075 < 1 := by
    rw [div_lt_one (by positivity)]
    exact one_lt_pow₀ (by norm_num) (by norm_num)
  have h3 : (1 : Rat) ≤ (n : Rat) := by exact_mod_cast h1
  exact lt_of_lt_of_le h2 h3

/-- Witness for C9 at the one-digit amount 7. -/
theorem validate_bill_amount_amended_witness :
    validate_bill_amount "7" = true :=
  validate_bill_amount_amended.1 "7" (by decide) (by decide)
    ⟨'7', by decide, by decide⟩

end CCBot
